import Mathlib

/-!
Verification development for the safe-action builder/execution engine.

The embedding follows the feature-complete revision of the source
(the builder with hooks, rawInput and defaultContext in
src/unnamed/part_004), together with src/src/errors.ts (error model),
src/src/hooks.ts (hook execution) and src/src/action.ts
(factory entry point).  JavaScript values are modelled by the
inductive `JSValue`; asynchronous steps are collapsed (every await is
sequential in the source), and thrown values travel in an explicit
exception layer.  An event log records which hooks and which error
handler ran, so that lifecycle claims can be stated; the log is an
observation device only, user-supplied functions cannot write to it.
-/

set_option maxHeartbeats 1000000

namespace SafeAction

/-- The closed set of error codes (src/src/errors.ts, `Code`). -/
inductive Code where
  | UNAUTHORIZED
  | NOT_FOUND
  | INTERNAL_ERROR
  | BAD_REQUEST
  | FORBIDDEN
  | CONFLICT
  | ERROR
  | TIMEOUT
  | PAYLOAD_TOO_LARGE
  | TOO_MANY_REQUESTS
  | PARSE_INPUT_ERROR
  | PARSE_OUTPUT_ERROR
  | MIDDLEWARE_ERROR
  | NEXT_ERROR
deriving DecidableEq, Repr

/-- Fixed default message for every code (src/src/errors.ts, `DEFAULT_ERROR_MESSAGES`). -/
def DEFAULT_ERROR_MESSAGES : Code → String
  | .ERROR => "Error"
  | .TIMEOUT => "Timeout"
  | .CONFLICT => "Conflict"
  | .NOT_FOUND => "Not found"
  | .FORBIDDEN => "Forbidden"
  | .NEXT_ERROR => "Next error"
  | .BAD_REQUEST => "Bad request"
  | .UNAUTHORIZED => "Unauthorized"
  | .INTERNAL_ERROR => "Internal error"
  | .MIDDLEWARE_ERROR => "Middleware error"
  | .PAYLOAD_TOO_LARGE => "Payload too large"
  | .TOO_MANY_REQUESTS => "Too many requests"
  | .PARSE_INPUT_ERROR => "Error parsing input"
  | .PARSE_OUTPUT_ERROR => "Error parsing output"

/-- Which Error subclass a JS error object belongs to.  `action` is an
`ActionError` instance carrying its `code`; `redirectCls` and
`notFoundCls` are the two Next.js control-flow signals recognised by
`isRedirectError` / `isNotFoundError`; `unknownCls` is
`UnknownCauseError`; `plainCls` is any other `Error`. -/
inductive ErrClass where
  | plainCls
  | unknownCls
  | redirectCls
  | notFoundCls
  | action (code : Code)
deriving DecidableEq, Repr

/-- A JavaScript value, as far as the engine inspects values:
`null`, `undefined`, primitives, plain objects (ordered own enumerable
string-keyed fields), functions (opaque: the engine never calls values
stored as data), and Error instances
`err class name message cause extraFields`. -/
inductive JSValue where
  | null
  | undefined
  | func
  | bool (b : Bool)
  | num (n : Int)
  | str (s : String)
  | obj (fields : List (String × JSValue))
  | err (cls : ErrClass) (name : String) (message : String)
      (cause : Option JSValue) (extra : List (String × JSValue))

/-- JS truthiness, used by every `if (x)` / `a && b` test in the source. -/
def jsTruthy : JSValue → Bool
  | .null => false
  | .undefined => false
  | .func => true
  | .bool b => b
  | .num n => n != 0
  | .str s => s ≠ ""
  | .obj _ => true
  | .err _ _ _ _ _ => true

/-- Nullish test for `??` and for strict comparison against both
`null` and `undefined`. -/
def isNullish : JSValue → Bool
  | .null => true
  | .undefined => true
  | _ => false

/-- `a ?? b`. -/
def jsCoalesce (a b : JSValue) : JSValue :=
  if isNullish a then b else a

/-- Own enumerable fields contributed by `{...v}`.  Objects contribute
their fields; `null`/`undefined` and primitives contribute nothing
(string index-spreading is not exercised by the engine: every spread
argument in the source is an object, `undefined`, or a context value). -/
def fieldsForSpread : JSValue → List (String × JSValue)
  | .obj fs => fs
  | _ => []

/-- Property read `v[k]` on the modelled object fields. -/
def jsGetField (v : JSValue) (k : String) : Option JSValue :=
  (fieldsForSpread v).lookup k

/-- Assoc-list merge with the second list winning on key conflicts:
the lookup semantics of `{...a, ...b}` (and of zod's `a.merge(b)` shape
merge).  Key order may differ from JS insertion order; all engine
behaviour modelled here depends on lookups only. -/
def assocMerge {α : Type} (a b : List (String × α)) : List (String × α) :=
  a.filter (fun p => (b.lookup p.1).isNone) ++ b

/-- `{...a, ...b}` on JS values. -/
def jsSpread2 (a b : JSValue) : JSValue :=
  .obj (assocMerge (fieldsForSpread a) (fieldsForSpread b))

/-- Normalized error shape `{code, message?, cause?}`
(src/src/errors.ts, `JSONError`). -/
structure JSONError where
  code : Code
  message : Option String := none
  cause : Option JSValue := none

/-- Message override applied when `for (const key in cause)` copies a
`message` field onto an `UnknownCauseError`; non-string assignments are
kept via their string coercion at the later `super(message)` call. -/
def jsToDisplayString : JSValue → String
  | .str s => s
  | .num n => toString n
  | .bool b => if b then "true" else "false"
  | .null => "null"
  | .undefined => "undefined"
  | .func => "function"
  | .obj _ => "[object Object]"
  | .err _ n m _ _ => n ++ ": " ++ m

/-- `getCauseFromUnknown` (src/src/errors.ts 43-66): an `Error` passes
through; `undefined`, functions and `null` give no cause; other
primitives are boxed into `new Error(String(cause))`; a plain object is
copied field-by-field onto an `UnknownCauseError` (the copy can
overwrite `message` and `cause`). -/
def getCauseFromUnknown : JSValue → Option JSValue
  | .err c n m cs ex => some (.err c n m cs ex)
  | .undefined => none
  | .func => none
  | .null => none
  | .str s => some (.err .plainCls "Error" s none [])
  | .num n => some (.err .plainCls "Error" (jsToDisplayString (.num n)) none [])
  | .bool b => some (.err .plainCls "Error" (jsToDisplayString (.bool b)) none [])
  | .obj fs =>
      some (.err .unknownCls "Error"
        (match fs.lookup "message" with
         | some v => jsToDisplayString v
         | none => "")
        (match fs.lookup "cause" with
         | some .undefined => none
         | some v => some v
         | none => none)
        fs)

/-- Message of a normalized cause, for the `cause?.message` fallback. -/
def causeMessage : Option JSValue → Option String
  | some (.err _ _ m _ _) => some m
  | _ => none

/-- `new ActionError(props)` (src/src/errors.ts 127-140): normalize the
cause, resolve the message as
`props.message ?? cause?.message ?? DEFAULT_ERROR_MESSAGES[props.code]`,
and pass the normalized cause to `super(message, {cause})` — but the
class field declaration `public override readonly cause?: unknown`
(line 129, no initializer) runs after `super` and resets the instance's
`cause` to `undefined`, so a constructed `ActionError` never carries a
cause (errors.spec.ts, "should set cause correctly", asserts exactly
this).  The normalized cause still feeds the message fallback, which is
computed before the reset. -/
def mkActionErrorProps (code : Code) (message : Option String)
    (cause : Option JSValue) : JSValue :=
  let c := match cause with
    | none => none
    | some v => getCauseFromUnknown v
  let msg := message.getD ((causeMessage c).getD (DEFAULT_ERROR_MESSAGES code))
  .err (.action code) "ActionError" msg none []

/-- `new ActionError(e)` for an already-normalized `JSONError`, as in
`throw new ActionError(inputParseResult.error)`. -/
def mkActionError (e : JSONError) : JSValue :=
  mkActionErrorProps e.code e.message e.cause

/-- `getFormattedError` (src/src/errors.ts 96-125): classification of an
arbitrary thrown value, rules tried in source order. -/
def getFormattedError : JSValue → JSONError
  | .err (.action code) _ m cs _ =>
      { code := code, message := some m, cause := cs }
  | .err .redirectCls n m cs ex =>
      { code := .NEXT_ERROR, message := some m,
        cause := some (.err .redirectCls n m cs ex) }
  | .err .notFoundCls n m cs ex =>
      { code := .NEXT_ERROR, message := some m,
        cause := some (.err .notFoundCls n m cs ex) }
  | .err .plainCls _ m cs _ =>
      { code := .ERROR, message := some m, cause := cs }
  | .err .unknownCls _ m cs _ =>
      { code := .ERROR, message := some m, cause := cs }
  | _ =>
      { code := .INTERNAL_ERROR,
        message := some "An unexpected error has occurred", cause := none }

/-- `new Error(m)`. -/
def jsError (m : String) : JSValue :=
  .err .plainCls "Error" m none []

/-- The object-based terminal `Result` shape of src/src/errors.ts 84:
`{ data: T, error: null } | { data: null, error: JSONError }`.
`data` is an arbitrary JS value (so a nullable payload is representable);
`error` is either `null` (`none`) or a `JSONError`. -/
structure ResultObj where
  data : JSValue
  error : Option JSONError

/-- Membership in the `Result<T>` union type for a nullable payload
type: either the success branch (`error` is `null`) or the failure
branch (`data` is `null` and `error` is present). -/
def InResultObj (r : ResultObj) : Prop :=
  r.error = none ∨ (r.data = JSValue.null ∧ r.error ≠ none)

/-- `isSuccess` (src/src/errors.ts 88-90): `result.error === null`. -/
def isSuccess (r : ResultObj) : Bool :=
  r.error.isNone

/-- `isFailure` (src/src/errors.ts 92-94): `result.data === null`. -/
def isFailure (r : ResultObj) : Bool :=
  match r.data with
  | .null => true
  | _ => false

/-- The discriminated success/failure value the compiled action
produces (`Success`/`Failure` in src/src/errors.ts; constructed by
`execute` in src/unnamed/part_004 as `{success:true, data}` /
`{success:false, error}`). -/
inductive Result where
  | success (data : JSValue)
  | failure (e : JSONError)

/-- View of a `Result` in the object-based terminal shape
(`{data, error:null}` on success, `{data:null, error}` on failure). -/
def toResultObj : Result → ResultObj
  | .success d => ⟨d, none⟩
  | .failure e => ⟨JSValue.null, some e⟩

/-- The three hook lifecycles (src/src/hooks.ts, `HookType`). -/
inductive HookType where
  | onSuccess
  | onError
  | onSettled
deriving DecidableEq, Repr

/-- Arguments passed to a hook.  The source passes
`{ctx, meta, rawInput}` to every lifecycle, adds `input` for
`onSuccess` and `error` for `onError`; absent fields are `undefined`
here. -/
structure HookArgs where
  ctx : JSValue
  meta : JSValue
  rawInput : JSValue
  input : JSValue := .undefined
  error : Option JSONError := none

/-- A registered hook callback.  `id` is an observation tag used only
by the instrumentation log; `fn` is the user callback, which may throw
(return `Except.error`). -/
structure Hook where
  id : Nat
  fn : HookArgs → Except JSValue Unit

/-- The per-lifecycle hook registry object; a `none` field models the
absence of that key on the JS `hooks` object. -/
structure Hooks where
  onSuccess : Option (List Hook) := none
  onError : Option (List Hook) := none
  onSettled : Option (List Hook) := none

/-- `hooks[type]`. -/
def Hooks.get (h : Hooks) : HookType → Option (List Hook)
  | .onSuccess => h.onSuccess
  | .onError => h.onError
  | .onSettled => h.onSettled

/-- The delta object `{[type]: list}` built by the `hook` chain method. -/
def hooksSingle (t : HookType) (l : List Hook) : Hooks :=
  match t with
  | .onSuccess => ⟨some l, none, none⟩
  | .onError => ⟨none, some l, none⟩
  | .onSettled => ⟨none, none, some l⟩

/-- `{...a, ...b}` on hook registries: a key present on `b` overrides. -/
def hooksOverride (a b : Hooks) : Hooks :=
  ⟨match b.onSuccess with
   | some l => some l
   | none => a.onSuccess,
   match b.onError with
   | some l => some l
   | none => a.onError,
   match b.onSettled with
   | some l => some l
   | none => a.onSettled⟩

/-- Instrumentation events: a hook of a given lifecycle and id was
invoked, or the configured error handler was invoked. -/
inductive Event where
  | hookRun (t : HookType) (id : Nat)
  | errorHandlerRun
deriving DecidableEq, Repr

/-- The instrumentation log. -/
abbrev Log := List Event

/-- Computation with a thrown-value exception layer and the
instrumentation log (the log survives a throw, as side effects do). -/
def Eff (α : Type) : Type := Log → Except JSValue α × Log

/-- Return. -/
def effPure {α : Type} (a : α) : Eff α := fun s => (Except.ok a, s)

/-- Sequencing; a thrown value short-circuits but keeps the log. -/
def effBind {α β : Type} (x : Eff α) (f : α → Eff β) : Eff β := fun s =>
  match x s with
  | (Except.ok a, s') => f a s'
  | (Except.error e, s') => (Except.error e, s')

/-- Record an event. -/
def effTell (e : Event) : Eff Unit := fun s => (Except.ok (), s ++ [e])

/-- `throw v`. -/
def effThrow {α : Type} (v : JSValue) : Eff α := fun s => (Except.error v, s)

/-- Run a log-free step (a user callback). -/
def effOf {α : Type} (x : Except JSValue α) : Eff α := fun s => (x, s)

/-- `executeHooks` body (src/src/hooks.ts 53-62): run each hook of the
list sequentially, awaiting each; the invocation of each hook is
recorded before it runs. -/
def executeHookList (t : HookType) (args : HookArgs) : List Hook → Eff Unit
  | [] => effPure ()
  | hk :: rest =>
      effBind (effTell (.hookRun t hk.id)) (fun _ =>
        effBind (effOf (hk.fn args)) (fun _ =>
          executeHookList t args rest))

/-- `executeHooks(hooks, opts)`: the `if (hooks)` guard around the loop. -/
def executeHooks (t : HookType) (l : Option (List Hook)) (args : HookArgs) :
    Eff Unit :=
  match l with
  | none => effPure ()
  | some hs => executeHookList t args hs

/-- A middleware body after it received `{meta, ctx, input, rawInput}`:
it can return a value, throw a value, or call `next` (with an optional
`ctx` patch) and continue with the delivered context.  A thrown value
from deeper in the stack propagates (middlewares in the source never
catch `next`'s rejection). -/
inductive MWProg where
  | ret (v : JSValue)
  | throwV (v : JSValue)
  | callNext (patch : Option JSValue) (k : JSValue → MWProg)

/-- A middleware function (src/unnamed/part_004, `MiddlewareFn`). -/
def MW : Type := JSValue → JSValue → JSValue → JSValue → MWProg

/-- A user handler: receives `{ctx, input}` and returns or throws. -/
def Handler : Type := JSValue → JSValue → Except JSValue JSValue

/-- An error handler callback (`ErrorHandler` in src/src/errors.ts). -/
def EH : Type := JSONError → Except JSValue Unit

/-- The stored `defaultContext` option: a provider function, or any
other stored value (the source stores whatever was supplied; `val
.undefined` is the unset state produced by `create()`). -/
inductive DCtx where
  | fn (f : Unit → Except JSValue JSValue)
  | val (v : JSValue)

/-- Nullish test on a stored `defaultContext` for the `??` in
`createNewActionBuilder`. -/
def dcNullish : DCtx → Bool
  | .fn _ => false
  | .val v => isNullish v

/-- Field validators of the external zod object schemas used by the
engine (the validation engine itself is an out-of-scope collaborator;
the engine only relies on per-field type checks, unknown-key stripping
and shape merging). -/
inductive FieldKind where
  | fstring
  | fnumber
  | fboolean
deriving DecidableEq, Repr

/-- The shape of a zod object schema: ordered named fields. -/
abbrev Schema := List (String × FieldKind)

/-- The accumulated definition `_def` of a builder
(src/unnamed/part_004, `ActionBuilderDef`). -/
structure Def where
  meta : JSValue
  hooks : Hooks
  inputs : List Schema
  outputs : List Schema
  defaultContext : DCtx
  middlewares : List MW
  errorHandler : Option EH

/-- A partial definition (`Partial<AnyActionBuilderDef>`): `none` is an
absent key. -/
structure DefDelta where
  meta : Option JSValue := none
  hooks : Option Hooks := none
  inputs : Option (List Schema) := none
  outputs : Option (List Schema) := none
  defaultContext : Option DCtx := none
  middlewares : Option (List MW) := none
  errorHandler : Option EH := none

/-- `createActionBuilder(initDef)` (src/unnamed/part_004 221-232):
defaults spread-overridden by the keys present in `initDef`. -/
def createActionBuilder (initDef : DefDelta) : Def :=
  { meta := initDef.meta.getD (.obj [])
    hooks := initDef.hooks.getD {}
    inputs := initDef.inputs.getD []
    outputs := initDef.outputs.getD []
    defaultContext := initDef.defaultContext.getD (.val (.obj []))
    middlewares := initDef.middlewares.getD []
    errorHandler := initDef.errorHandler }

/-- `createNewActionBuilder(def1, def2)` (src/unnamed/part_004 201-219):
the pointwise merge of a definition with a delta — list fields are
concatenated in order, `meta` and `hooks` are shallow-merged with the
delta winning when both sides are truthy, `errorHandler` and
`defaultContext` are last-write-wins via `??`. -/
def createNewActionBuilder (d1 : Def) (d2 : DefDelta) : Def :=
  createActionBuilder
    { errorHandler :=
        match d2.errorHandler with
        | some f => some f
        | none => d1.errorHandler
      defaultContext := some
        (match d2.defaultContext with
         | some dc => if dcNullish dc then d1.defaultContext else dc
         | none => d1.defaultContext)
      inputs := some (d1.inputs ++ d2.inputs.getD [])
      outputs := some (d1.outputs ++ d2.outputs.getD [])
      middlewares := some (d1.middlewares ++ d2.middlewares.getD [])
      meta := some
        (if jsTruthy d1.meta && (match d2.meta with
            | some m => jsTruthy m
            | none => false)
         then jsSpread2 d1.meta (d2.meta.getD .undefined)
         else match d2.meta with
           | some m => if isNullish m then d1.meta else m
           | none => d1.meta)
      hooks := some
        (match d2.hooks with
         | some h2 => hooksOverride d1.hooks h2
         | none => d1.hooks) }

/-- The `input` chain method: append one input schema fragment. -/
def Def.input (d : Def) (s : Schema) : Def :=
  createNewActionBuilder d { inputs := some [s] }

/-- The `output` chain method: append one output schema fragment. -/
def Def.output (d : Def) (s : Schema) : Def :=
  createNewActionBuilder d { outputs := some [s] }

/-- The `middleware` chain method: append one middleware. -/
def Def.middleware (d : Def) (m : MW) : Def :=
  createNewActionBuilder d { middlewares := some [m] }

/-- The `meta` chain method (named `chainMeta` because the structure
field already carries the source name `meta`). -/
def Def.chainMeta (d : Def) (m : JSValue) : Def :=
  createNewActionBuilder d { meta := some m }

/-- The `hook` chain method: read `_def.hooks[type] ?? []`, append the
callback, and merge the one-key delta. -/
def Def.hook (d : Def) (t : HookType) (hk : Hook) : Def :=
  createNewActionBuilder d
    { hooks := some (hooksSingle t (((d.hooks.get t).getD []) ++ [hk])) }

/-- Options accepted by the factory `create`
(src/src/action.ts, `CreateOptions`); absent options are `undefined`. -/
structure CreateOptions where
  defaultMeta : JSValue := .undefined
  defaultContext : DCtx := .val .undefined
  errorHandler : Option EH := none

/-- `CreateActionBuilder.create(opts)` (src/src/action.ts 29-37): pass
the three options — present, possibly `undefined` — into the initial
definition.  No runtime validation is performed on them. -/
def create (opts : CreateOptions) : Def :=
  createActionBuilder
    { meta := some opts.defaultMeta
      errorHandler := opts.errorHandler
      defaultContext := some opts.defaultContext }

/-- `combineSchema(schemas)` (src/unnamed/part_004 234-239): reduce the
fragments left-to-right with zod's `merge` (later fragments override
same-named fields), starting from the empty object schema. -/
def combineSchema (ss : List Schema) : Schema :=
  ss.foldl (fun acc s => assocMerge acc s) []

/-- One zod field check: does the value satisfy the field validator. -/
def fieldCheck : FieldKind → JSValue → Bool
  | .fstring, .str _ => true
  | .fnumber, .num _ => true
  | .fboolean, .bool _ => true
  | _, _ => false

/-- Walk the shape over the supplied object fields, producing the
parsed fields (shape order, unknown keys stripped) and the field
errors `(path, message)`. -/
def zodParseFields (fs : List (String × JSValue)) :
    List (String × FieldKind) →
      List (String × JSValue) × List (String × String)
  | [] => ([], [])
  | (k, kind) :: rest =>
      let r := zodParseFields fs rest
      match fs.lookup k with
      | none => (r.1, (k, "Required") :: r.2)
      | some fv =>
          if fieldCheck kind fv then ((k, fv) :: r.1, r.2)
          else (r.1, (k, "Invalid type") :: r.2)

/-- `schema.safeParse(data)` of the external validator on an object
schema: structural success returns the projected object; failure
returns the flattened field errors (a non-object input has no field
errors, mirroring `flatten().fieldErrors` being empty then). -/
def zodSafeParse (shape : Schema) (v : JSValue) :
    Except (List (String × String)) JSValue :=
  match v with
  | .obj fs =>
      let r := zodParseFields fs shape
      if r.2.isEmpty then .ok (.obj r.1) else .error r.2
  | _ => .error []

/-- Schema direction tag. -/
inductive SchemaType where
  | input
  | output
deriving DecidableEq, Repr

/-- Error code per direction (`schemaCodeErrors`). -/
def schemaCode : SchemaType → Code
  | .input => .PARSE_INPUT_ERROR
  | .output => .PARSE_OUTPUT_ERROR

/-- One line of the joined validation message. -/
def schemaErrLine (st : SchemaType) (path msg : String) : String :=
  match st with
  | .input => "Error parsing input at param: " ++ path ++ " - " ++ msg
  | .output => "Error parsing output at param: " ++ path ++ " - " ++ msg

/-- `parseSchema` (src/unnamed/part_004 241-302): pass through when no
fragment was registered for the direction; otherwise run the combined
schema, and on failure join one message per invalid field (falling back
to the fixed default when the list is empty) into an
`ActionError({code, message})` failure value.  The validator model is
total, so the surrounding `catch` branch is unreachable here. -/
def parseSchema (d : Def) (schema : Schema) (data : JSValue)
    (st : SchemaType) : Except JSONError JSValue :=
  if st = SchemaType.input ∧ d.inputs = [] then .ok data
  else if st = SchemaType.output ∧ d.outputs = [] then .ok data
  else
    match zodSafeParse schema data with
    | .ok parsed => .ok parsed
    | .error errs =>
        let message :=
          String.intercalate "\n" (errs.map (fun p => schemaErrLine st p.1 p.2))
        let msg := if message.length = 0 then "Error parsing schema" else message
        .error { code := schemaCode st, message := some msg, cause := none }

/-- Interpret one middleware body against the `next` capability handed
to it; a rejection from `next` propagates. -/
def interpMW (prog : MWProg)
    (next : Option JSValue → Except JSValue JSValue) :
    Except JSValue JSValue :=
  match prog with
  | .ret v => .ok v
  | .throwV v => .error v
  | .callNext patch k =>
      match next patch with
      | .error e => .error e
      | .ok r => interpMW (k r) next

/-- The context computed by `next` (src/unnamed/part_004 324-333):
`let mergedContext; if (prevCtx) mergedContext = {...prevCtx};
if (opts?.ctx) mergedContext = {...mergedContext, ...opts.ctx}`. -/
def nextMerge (prevCtx : JSValue) (patch : Option JSValue) : JSValue :=
  let m1 : JSValue :=
    if jsTruthy prevCtx then .obj (fieldsForSpread prevCtx) else .undefined
  match patch with
  | some p => if jsTruthy p then jsSpread2 m1 p else m1
  | none => m1

/-- `executeMiddlewareStack` (src/unnamed/part_004 304-352): run the
middleware at the head against the rest of the stack; when a middleware
returns, a nullish return value falls back to the context it received
(`resultFn ?? prevCtx`); an exhausted stack returns the current context. -/
def executeMiddlewareStack (meta input rawInput : JSValue) :
    List MW → JSValue → Except JSValue JSValue
  | [], prevCtx => .ok prevCtx
  | m :: rest, prevCtx =>
      match interpMW (m meta prevCtx input rawInput)
          (fun patch =>
            executeMiddlewareStack meta input rawInput rest
              (nextMerge prevCtx patch)) with
      | .error e => .error e
      | .ok r => .ok (if isNullish r then prevCtx else r)

/-- `if (_def.defaultContext) defaultContext = _def.defaultContext()`
(src/unnamed/part_004 362-370): a stored function is truthy and is
called (awaited); a stored truthy non-function raises the call-site
TypeError; a falsy stored value leaves the context `undefined`. -/
def typeErrorNotAFunction : JSValue :=
  .err .plainCls "TypeError" "_def.defaultContext is not a function" none []

/-- Resolve the default context per the guard above. -/
def resolveDefaultContext : DCtx → Except JSValue JSValue
  | .fn f => f ()
  | .val v => if jsTruthy v then .error typeErrorNotAFunction else .ok .undefined

/-- `executeMiddleware` (src/unnamed/part_004 354-383): resolve the
default context, run the stack from it, and convert any thrown value
into a classified failure. -/
def executeMiddleware (d : Def) (input rawInput : JSValue) :
    Except JSONError JSValue :=
  match
    (match resolveDefaultContext d.defaultContext with
     | .error e => .error e
     | .ok dctx =>
         executeMiddlewareStack d.meta input rawInput d.middlewares dctx :
      Except JSValue JSValue) with
  | .ok ctx => .ok ctx
  | .error e => .error (getFormattedError e)

/-- Invoke the configured error handler, if any, recording the call. -/
def runErrorHandler (d : Def) (e : JSONError) : Eff Unit :=
  match d.errorHandler with
  | some f => effBind (effTell .errorHandlerRun) (fun _ => effOf (f e))
  | none => effPure ()

/-- The `catch` block of `execute` (src/unnamed/part_004 449-474):
classify the thrown value, run the error handler, then either replay
the success-hook batch and re-raise (for `NEXT_ERROR`) or run the
error-hook batch and return the failure value.  `ctxV` and `inpV` are
the values of the captured `ctx` / `parsedInput` variables when the
throw happened. -/
def catchPart (d : Def) (ctxV inpV raw : JSValue) (thrown : JSValue) :
    Eff Result :=
  let fe := getFormattedError thrown
  effBind (runErrorHandler d fe) (fun _ =>
    if fe.code = Code.NEXT_ERROR then
      effBind (executeHooks .onSuccess d.hooks.onSuccess
          { ctx := ctxV, meta := d.meta, rawInput := raw, input := inpV })
        (fun _ => effThrow thrown)
    else
      effBind (executeHooks .onError d.hooks.onError
          { ctx := ctxV, meta := d.meta, rawInput := raw, error := some fe })
        (fun _ => effPure (Result.failure fe)))

/-- The `finally` block of `execute` (src/unnamed/part_004 475-481). -/
def finallyPart (d : Def) (ctxV raw : JSValue) : Eff Unit :=
  executeHooks .onSettled d.hooks.onSettled
    { ctx := ctxV, meta := d.meta, rawInput := raw }

/-- JS `try { body } catch (e) { hnd } finally { fin }`: the handler
runs only on a throw; the finalizer always runs once, and its own throw
would replace the outcome. -/
def tryCatchFinally {α : Type} (body : Eff α) (hnd : JSValue → Eff α)
    (fin : Eff Unit) : Eff α := fun s =>
  let r1 := body s
  let r2 :=
    match r1 with
    | (Except.ok a, s1) => (Except.ok a, s1)
    | (Except.error e, s1) => hnd e s1
  match fin r2.2 with
  | (Except.ok _, s3) => (r2.1, s3)
  | (Except.error e, s3) => (Except.error e, s3)

/-- Tail of the `try` block after output validation succeeded: run the
success-hook batch, then return `{success:true, data: parsedOutput ??
rawData}`. -/
def successBody (d : Def) (ctx pin raw rawData pout : JSValue) :
    Eff Result :=
  effBind (executeHooks .onSuccess d.hooks.onSuccess
      { ctx := ctx, meta := d.meta, rawInput := raw, input := pin })
    (fun _ => effPure (Result.success (jsCoalesce pout rawData)))

/-- The compiled callable produced by `execute(handler)`
(src/unnamed/part_004 403-483), at its first invocation (the captured
`ctx` / `parsedInput` variables start `undefined`): validate input, run
the middleware pipeline, run the handler, validate output, run the
success hooks, and return the success value — any throw lands in
`catchPart`, and `finallyPart` always runs.  A parse or middleware
failure value is re-thrown wrapped in `new ActionError(...)`. -/
def execute (d : Def) (handler : Handler) (raw : JSValue) : Eff Result :=
  match parseSchema d (combineSchema d.inputs) raw SchemaType.input with
  | .error e =>
      tryCatchFinally (effThrow (mkActionError e))
        (catchPart d .undefined .undefined raw) (finallyPart d .undefined raw)
  | .ok pin =>
      match executeMiddleware d pin raw with
      | .error e =>
          tryCatchFinally (effThrow (mkActionError e))
            (catchPart d .undefined pin raw) (finallyPart d .undefined raw)
      | .ok ctx =>
          match handler ctx pin with
          | .error v =>
              tryCatchFinally (effThrow v)
                (catchPart d ctx pin raw) (finallyPart d ctx raw)
          | .ok rawData =>
              match parseSchema d (combineSchema d.outputs) rawData
                  SchemaType.output with
              | .error e =>
                  tryCatchFinally (effThrow (mkActionError e))
                    (catchPart d ctx pin raw) (finallyPart d ctx raw)
              | .ok pout =>
                  tryCatchFinally (successBody d ctx pin raw rawData pout)
                    (catchPart d ctx pin raw) (finallyPart d ctx raw)

/-- A hook callback that never throws. -/
def NonThrowingHook (hk : Hook) : Prop :=
  ∀ a, hk.fn a = Except.ok ()

/-- Every hook of a registered lifecycle list is non-throwing. -/
def NonThrowingHookList (l : Option (List Hook)) : Prop :=
  ∀ hk ∈ l.getD [], NonThrowingHook hk

/-- Every registered hook of the definition is non-throwing. -/
def NonThrowingHooks (d : Def) : Prop :=
  NonThrowingHookList d.hooks.onSuccess ∧
    NonThrowingHookList d.hooks.onError ∧
    NonThrowingHookList d.hooks.onSettled

/-- The configured error handler, if any, never throws. -/
def NonThrowingEH (d : Def) : Prop :=
  ∀ f, d.errorHandler = some f → ∀ e, f e = Except.ok ()

/-- Is an event the run of an `onSettled` hook. -/
def evIsSettled : Event → Bool
  | .hookRun .onSettled _ => true
  | _ => false

/-- The events of one full run of a lifecycle hook batch. -/
def hookEvents (t : HookType) (l : Option (List Hook)) : Log :=
  (l.getD []).map (fun hk => Event.hookRun t hk.id)

/-- The events of one error-handler invocation (empty when no error
handler is configured). -/
def ehEvents (d : Def) : Log :=
  match d.errorHandler with
  | some _ => [Event.errorHandlerRun]
  | none => []

/-- The events that one full run of the registered `onSettled` batch
produces. -/
def settledEvents (d : Def) : Log :=
  hookEvents .onSettled d.hooks.onSettled

/-- Projection of an invocation outcome to the success payload, when
the outcome is a success `Result`. -/
def okData : Except JSValue Result → Option JSValue
  | .ok (.success v) => some v
  | _ => none

/-- The input schema `z.object({name: z.string()})` of the C1 scenario. -/
def nameSchema : Schema := [("name", FieldKind.fstring)]

/-- The C1 handler: return `{greeting: "hi " + input.name}` (string
concatenation with an absent field yields the JS "undefined" text). -/
def greetHandler : Handler := fun _ input =>
  Except.ok (.obj [("greeting",
    .str ("hi " ++ (match jsGetField input "name" with
      | some (.str s) => s
      | some v => jsToDisplayString v
      | none => "undefined")))])

/-- The C1 action definition: factory-created builder with the single
input schema, no middleware, no hooks. -/
def scenarioDef : Def := (create {}).input nameSchema

/-- A Next.js redirect control-flow signal, as recognized by
`isRedirectError`. -/
def redirectSignal : JSValue := .err .redirectCls "Error" "NEXT_REDIRECT" none []

/-- A middleware that throws the redirect signal before calling `next`. -/
def mwThrowRedirect : MW := fun _ _ _ _ => MWProg.throwV redirectSignal

/-- Action whose only middleware throws the redirect signal. -/
def redirectMwDef : Def := (create {}).middleware mwThrowRedirect

/-- A benign handler returning a string payload. -/
def constHandler (s : String) : Handler := fun _ _ => Except.ok (.str s)

/-- The `ActionError` wrapper that `execute` re-raises when the
middleware phase reported a `NEXT_ERROR`: it carries the signal's
message, but its `cause` is `undefined` (the class field reset at
errors.ts 129), so the original signal is not preserved on it. -/
def redirectWrapped : JSValue :=
  .err (.action .NEXT_ERROR) "ActionError" "NEXT_REDIRECT" none []

/-- A middleware that returns a value without ever calling `next`. -/
def constMW (v : JSValue) : MW := fun _ _ _ _ => MWProg.ret v

/-- A middleware that patches the context with one key and returns the
result of `next`. -/
def patchMW (k : String) (v : JSValue) : MW := fun _ _ _ _ =>
  MWProg.callNext (some (.obj [(k, v)])) (fun r => MWProg.ret r)

/-- A handler that returns the context it received. -/
def ctxHandler : Handler := fun ctx _ => Except.ok ctx

/-- The C6 action: a default-context provider over the given fields and
three patching middlewares. -/
def accumDef (dflt : List (String × JSValue)) (k1 k2 k3 : String)
    (v1 v2 v3 : JSValue) : Def :=
  (((create { defaultContext := .fn (fun _ => Except.ok (.obj dflt)) }
    ).middleware (patchMW k1 v1)).middleware (patchMW k2 v2)).middleware
    (patchMW k3 v3)

/-- A non-throwing error handler. -/
def ehOk : EH := fun _ => Except.ok ()

/-- A benign (non-throwing) hook with an observation id. -/
def hookOk (i : Nat) : Hook := ⟨i, fun _ => Except.ok ()⟩

/-- A hook that throws the given value, with an observation id. -/
def hookThrow (i : Nat) (v : JSValue) : Hook := ⟨i, fun _ => Except.error v⟩

/-- The C10 action: error handler configured, success hooks
`[benign, throwing, benign]`, one error hook, one settled hook. -/
def hookThrowDef (v : JSValue) : Def :=
  ((((create { errorHandler := some ehOk }).hook .onSuccess (hookOk 1)).hook
    .onSuccess (hookThrow 2 v)).hook .onSuccess (hookOk 3)).hook .onError
    (hookOk 4) |>.hook .onSettled (hookOk 5)

/-- A non-callable stored default-context value (a plain object). -/
def nonCallableDC : DCtx := .val (.obj [("not", .str "callable")])

/-- The C4 counterexample value: a success `Result` whose `data`
payload is itself `null` — both fields are `null`. -/
def nullSuccess : ResultObj := ⟨JSValue.null, none⟩

/-- An action whose handler returns `null` (no output schema), whose
invocation produces the `nullSuccess` terminal value. -/
def nullHandlerDef : Def := create {}

/-- Handler returning `null`. -/
def nullHandler : Handler := fun _ _ => Except.ok JSValue.null

/-- A definition with no hooks and no error handler, used as a witness
carrier for the pipeline-level theorems. -/
def plainDef : Def := create {}

/-- Per-middleware-phase C8 amended carrier: `middlewares = constMW v ::
post`, everything else from the plain factory definition. -/
def shortCircuitDef (v : JSValue) (post : List MW) : Def :=
  createNewActionBuilder (create {}) { middlewares := some (constMW v :: post) }

/-- C3 witness carrier: a single registered `onSettled` hook. -/
def settledDef : Def := (create {}).hook .onSettled (hookOk 7)

/-- C5 witness carrier: a factory definition with a truthy object meta. -/
def metaDef : Def := create { defaultMeta := .obj [("a", .num 1)] }

/-- The context the C6 stack delivers to the handler: the resolved
default fields shallow-merged with the three patches in order. -/
def accumCtx (dflt : List (String × JSValue)) (k1 k2 k3 : String)
    (v1 v2 v3 : JSValue) : List (String × JSValue) :=
  assocMerge (assocMerge (assocMerge dflt [(k1, v1)]) [(k2, v2)]) [(k3, v3)]

theorem lookup_append {α : Type} (k : String) (xs ys : List (String × α)) :
    (xs ++ ys).lookup k =
      match xs.lookup k with
      | some v => some v
      | none => ys.lookup k := by
  induction xs with
  | nil => simp
  | cons p t ih =>
      obtain ⟨k', v'⟩ := p
      by_cases h : k = k'
      · subst h
        simp [List.lookup]
      · simp [List.lookup, ih, beq_false_of_ne h]

theorem lookup_filter_of_none {α : Type} (k : String)
    (a b : List (String × α)) (h : b.lookup k = none) :
    (a.filter (fun p => (b.lookup p.1).isNone)).lookup k = a.lookup k := by
  induction a with
  | nil => simp
  | cons p t ih =>
      obtain ⟨k', v'⟩ := p
      by_cases hk : k = k'
      · subst hk
        simp [List.filter, h, List.lookup]
      · cases hb : (b.lookup k').isNone with
        | true => simp [List.filter, hb, List.lookup, beq_false_of_ne hk, ih]
        | false => simp [List.filter, hb, ih, List.lookup, beq_false_of_ne hk]

theorem lookup_filter_of_some {α : Type} (k : String)
    (a b : List (String × α)) (v : α) (h : b.lookup k = some v) :
    (a.filter (fun p => (b.lookup p.1).isNone)).lookup k = none := by
  induction a with
  | nil => simp
  | cons p t ih =>
      obtain ⟨k', v'⟩ := p
      by_cases hk : k = k'
      · subst hk
        simp [List.filter, h, ih]
      · cases hb : (b.lookup k').isNone with
        | true => simp [List.filter, hb, List.lookup, beq_false_of_ne hk, ih]
        | false => simp [List.filter, hb, ih]

/-- Lookup semantics of the shallow merge: the second argument wins. -/
theorem lookup_assocMerge {α : Type} (k : String)
    (a b : List (String × α)) :
    (assocMerge a b).lookup k =
      match b.lookup k with
      | some v => some v
      | none => a.lookup k := by
  unfold assocMerge
  rw [lookup_append]
  cases hb : b.lookup k with
  | some v => simp [lookup_filter_of_some k a b v hb]
  | none =>
      simp only [lookup_filter_of_none k a b hb, hb]
      cases List.lookup k a <;> rfl

theorem lookup_assocMerge_of_none {α : Type} (k : String)
    (a b : List (String × α)) (h : b.lookup k = none) :
    (assocMerge a b).lookup k = a.lookup k := by
  rw [lookup_assocMerge k a b, h]

theorem lookup_assocMerge_of_some {α : Type} (k : String)
    (a b : List (String × α)) (v : α) (h : b.lookup k = some v) :
    (assocMerge a b).lookup k = some v := by
  rw [lookup_assocMerge k a b, h]

theorem executeHookList_run (t : HookType) (args : HookArgs)
    (l : List Hook) (h : ∀ hk ∈ l, NonThrowingHook hk) : ∀ s : Log,
    executeHookList t args l s =
      (Except.ok (), s ++ l.map (fun hk => Event.hookRun t hk.id)) := by
  induction l with
  | nil => intro s; simp [executeHookList, effPure]
  | cons hk rest ih =>
      intro s
      have hfn : hk.fn args = Except.ok () := h hk (by simp) args
      have ihr := ih (fun x hx => h x (by simp [hx]))
      simp [executeHookList, effBind, effTell, effOf, hfn, ihr]

theorem executeHooks_run (t : HookType) (args : HookArgs)
    (l : Option (List Hook)) (h : NonThrowingHookList l) (s : Log) :
    executeHooks t l args s = (Except.ok (), s ++ hookEvents t l) := by
  cases l with
  | none => simp [executeHooks, effPure, hookEvents]
  | some hs =>
      have := executeHookList_run t args hs (by simpa [NonThrowingHookList] using h) s
      simpa [executeHooks, hookEvents] using this

theorem executeHookList_log (t : HookType) (args : HookArgs) :
    ∀ (l : List Hook) (s : Log), ∃ new,
      (executeHookList t args l s).2 = s ++ new ∧
        ∀ e ∈ new, ∃ i, e = Event.hookRun t i := by
  intro l
  induction l with
  | nil => intro s; exact ⟨[], by simp [executeHookList, effPure], by simp⟩
  | cons hk rest ih =>
      intro s
      cases hfn : hk.fn args with
      | ok u =>
          obtain ⟨new, h1, h2⟩ := ih (s ++ [Event.hookRun t hk.id])
          refine ⟨Event.hookRun t hk.id :: new, ?_, ?_⟩
          · simp [executeHookList, effBind, effTell, effOf, hfn, h1]
          · intro e he
            rcases List.mem_cons.1 he with h | h
            · exact ⟨hk.id, h⟩
            · exact h2 e h
      | error v =>
          refine ⟨[Event.hookRun t hk.id], ?_, ?_⟩
          · simp [executeHookList, effBind, effTell, effOf, hfn]
          · intro e he
            simp only [List.mem_singleton] at he
            exact ⟨hk.id, he⟩

theorem executeHooks_log (t : HookType) (args : HookArgs)
    (l : Option (List Hook)) (s : Log) : ∃ new,
      (executeHooks t l args s).2 = s ++ new ∧
        ∀ e ∈ new, ∃ i, e = Event.hookRun t i := by
  cases l with
  | none => exact ⟨[], by simp [executeHooks, effPure], by simp⟩
  | some hs => simpa [executeHooks] using executeHookList_log t args hs s

theorem runErrorHandler_run (d : Def) (hE : NonThrowingEH d)
    (e : JSONError) (s : Log) :
    runErrorHandler d e s = (Except.ok (), s ++ ehEvents d) := by
  cases heh : d.errorHandler with
  | none => simp [runErrorHandler, heh, effPure, ehEvents]
  | some f =>
      have hf : f e = Except.ok () := hE f heh e
      simp [runErrorHandler, heh, effBind, effTell, effOf, hf, ehEvents]

theorem runErrorHandler_log (d : Def) (e : JSONError) (s : Log) : ∃ new,
    (runErrorHandler d e s).2 = s ++ new ∧
      ∀ ev ∈ new, ev = Event.errorHandlerRun := by
  cases heh : d.errorHandler with
  | none => exact ⟨[], by simp [runErrorHandler, heh, effPure], by simp⟩
  | some f =>
      cases hf : f e with
      | ok u =>
          exact ⟨[Event.errorHandlerRun],
            by simp [runErrorHandler, heh, effBind, effTell, effOf, hf],
            by simp⟩
      | error v =>
          exact ⟨[Event.errorHandlerRun],
            by simp [runErrorHandler, heh, effBind, effTell, effOf, hf],
            by simp⟩

/-- The catch block never records an `onSettled` event. -/
theorem catchPart_log (d : Def) (c i r v : JSValue) (s : Log) : ∃ new,
    (catchPart d c i r v s).2 = s ++ new ∧
      ∀ e ∈ new, evIsSettled e = false := by
  obtain ⟨n1, h1, h1t⟩ := runErrorHandler_log d (getFormattedError v) s
  rcases hre : runErrorHandler d (getFormattedError v) s with ⟨r1, s1⟩
  rw [hre] at h1
  simp only at h1
  subst h1
  cases r1 with
  | error e =>
      refine ⟨n1, ?_, ?_⟩
      · simp [catchPart, effBind, hre]
      · intro e' he'
        simp [h1t e' he', evIsSettled]
  | ok u =>
      by_cases hc : (getFormattedError v).code = Code.NEXT_ERROR
      · obtain ⟨n2, h2, h2t⟩ := executeHooks_log .onSuccess
          { ctx := c, meta := d.meta, rawInput := r, input := i }
          d.hooks.onSuccess (s ++ n1)
        rcases hh : executeHooks .onSuccess d.hooks.onSuccess
            { ctx := c, meta := d.meta, rawInput := r, input := i }
            (s ++ n1) with ⟨r2, s2⟩
        rw [hh] at h2
        simp only at h2
        subst h2
        refine ⟨n1 ++ n2, ?_, ?_⟩
        · cases r2 with
          | error e2 => simp [catchPart, effBind, hre, hc, hh]
          | ok u2 => simp [catchPart, effBind, hre, hc, hh, effThrow]
        · intro e' he'
          rcases List.mem_append.1 he' with hm | hm
          · simp [h1t e' hm, evIsSettled]
          · obtain ⟨idx, hidx⟩ := h2t e' hm
            simp [hidx, evIsSettled]
      · obtain ⟨n2, h2, h2t⟩ := executeHooks_log .onError
          { ctx := c, meta := d.meta, rawInput := r,
            error := some (getFormattedError v) } d.hooks.onError (s ++ n1)
        rcases hh : executeHooks .onError d.hooks.onError
            { ctx := c, meta := d.meta, rawInput := r,
              error := some (getFormattedError v) } (s ++ n1) with ⟨r2, s2⟩
        rw [hh] at h2
        simp only at h2
        subst h2
        refine ⟨n1 ++ n2, ?_, ?_⟩
        · cases r2 with
          | error e2 => simp [catchPart, effBind, hre, hc, hh]
          | ok u2 => simp [catchPart, effBind, hre, hc, hh, effPure]
        · intro e' he'
          rcases List.mem_append.1 he' with hm | hm
          · simp [h1t e' hm, evIsSettled]
          · obtain ⟨idx, hidx⟩ := h2t e' hm
            simp [hidx, evIsSettled]

/-- Closed form of the catch block when the error handler and the
hooks it invokes do not throw: re-raise of the caught value when it
classifies as `NEXT_ERROR` (after the error handler and the
success-hook batch), otherwise a returned failure `Result` (after the
error handler and the error-hook batch). -/
theorem catchPart_run (d : Def)
    (hSuc : NonThrowingHookList d.hooks.onSuccess)
    (hErr : NonThrowingHookList d.hooks.onError)
    (hE : NonThrowingEH d) (c i r v : JSValue) (s : Log) :
    catchPart d c i r v s =
      (if (getFormattedError v).code = Code.NEXT_ERROR
       then (Except.error v,
         s ++ ehEvents d ++ hookEvents .onSuccess d.hooks.onSuccess)
       else (Except.ok (Result.failure (getFormattedError v)),
         s ++ ehEvents d ++ hookEvents .onError d.hooks.onError)) := by
  by_cases hc : (getFormattedError v).code = Code.NEXT_ERROR
  · simp [catchPart, effBind, runErrorHandler_run d hE, hc,
      executeHooks_run .onSuccess
        { ctx := c, meta := d.meta, rawInput := r, input := i }
        d.hooks.onSuccess hSuc, effThrow]
  · simp [catchPart, effBind, runErrorHandler_run d hE, hc,
      executeHooks_run .onError
        { ctx := c, meta := d.meta, rawInput := r,
          error := some (getFormattedError v) }
        d.hooks.onError hErr, effPure]

/-- With non-throwing hooks and error handler, a try body that throws
`ve` either produces a returned failure `Result` or re-raises `ve`
itself, the latter exactly when `ve` classifies as `NEXT_ERROR`. -/
theorem tcf_throw_fst (d : Def)
    (hSuc : NonThrowingHookList d.hooks.onSuccess)
    (hErr : NonThrowingHookList d.hooks.onError)
    (hSet : NonThrowingHookList d.hooks.onSettled)
    (hE : NonThrowingEH d) (cV iV r ve : JSValue) (s : Log) (v : JSValue)
    (h : (tryCatchFinally (effThrow ve) (catchPart d cV iV r)
        (finallyPart d cV r) s).1 = Except.error v) :
    v = ve ∧ (getFormattedError v).code = Code.NEXT_ERROR := by
  by_cases hc : (getFormattedError ve).code = Code.NEXT_ERROR
  · simp [tryCatchFinally, effThrow,
      catchPart_run d hSuc hErr hE cV iV r ve s, hc, finallyPart,
      executeHooks_run .onSettled
        { ctx := cV, meta := d.meta, rawInput := r }
        d.hooks.onSettled hSet] at h
    subst h
    exact ⟨rfl, hc⟩
  · exfalso
    simp [tryCatchFinally, effThrow,
      catchPart_run d hSuc hErr hE cV iV r ve s, hc, finallyPart,
      executeHooks_run .onSettled
        { ctx := cV, meta := d.meta, rawInput := r }
        d.hooks.onSettled hSet] at h

/-- With non-throwing hooks, the success-path body completes and the
invocation returns the success `Result`. -/
theorem tcf_success_fst (d : Def)
    (hSuc : NonThrowingHookList d.hooks.onSuccess)
    (hSet : NonThrowingHookList d.hooks.onSettled)
    (ctx pin r rawData pout : JSValue) (s : Log) :
    (tryCatchFinally (successBody d ctx pin r rawData pout)
        (catchPart d ctx pin r) (finallyPart d ctx r) s).1 =
      Except.ok (Result.success (jsCoalesce pout rawData)) := by
  simp [tryCatchFinally, successBody, effBind,
    executeHooks_run .onSuccess
      { ctx := ctx, meta := d.meta, rawInput := r, input := pin }
      d.hooks.onSuccess hSuc,
    effPure, finallyPart,
    executeHooks_run .onSettled
      { ctx := ctx, meta := d.meta, rawInput := r }
      d.hooks.onSettled hSet]

theorem filter_settled_nil (l : Log) (h : ∀ e ∈ l, evIsSettled e = false) :
    l.filter evIsSettled = [] := by
  induction l with
  | nil => rfl
  | cons a t ih =>
      simp [List.filter, h a (by simp),
        ih (fun e he => h e (by simp [he]))]

theorem filter_settled_events (l : Option (List Hook)) :
    (hookEvents .onSettled l).filter evIsSettled =
      hookEvents .onSettled l := by
  cases l with
  | none => rfl
  | some hs =>
      induction hs with
      | nil => rfl
      | cons hk t ih =>
          simp only [hookEvents, Option.getD_some, List.map_cons,
            List.filter] at ih ⊢
          simp [evIsSettled, ih]

/-- The success-path body never records an `onSettled` event. -/
theorem successBody_log (d : Def) (ctx pin r rawData pout : JSValue)
    (s : Log) : ∃ new, (successBody d ctx pin r rawData pout s).2 = s ++ new ∧
      ∀ e ∈ new, evIsSettled e = false := by
  obtain ⟨n, hn, hnt⟩ := executeHooks_log .onSuccess
    { ctx := ctx, meta := d.meta, rawInput := r, input := pin }
    d.hooks.onSuccess s
  rcases hh : executeHooks .onSuccess d.hooks.onSuccess
      { ctx := ctx, meta := d.meta, rawInput := r, input := pin } s with ⟨r1, s1⟩
  rw [hh] at hn
  simp only at hn
  subst hn
  refine ⟨n, ?_, ?_⟩
  · cases r1 with
    | error e => simp [successBody, effBind, hh]
    | ok u => simp [successBody, effBind, hh, effPure]
  · intro e he
    obtain ⟨i, hi⟩ := hnt e he
    simp [hi, evIsSettled]

/-- Whichever way the try/catch resolves, the settled batch is the
only source of `onSettled` events, and — when the settled hooks do not
throw — it runs through completely, exactly once. -/
theorem tcf_settled (d : Def) (cV iV r : JSValue) (body : Eff Result)
    (hbody : ∀ s, ∃ new, (body s).2 = s ++ new ∧
      ∀ e ∈ new, evIsSettled e = false)
    (hset : NonThrowingHookList d.hooks.onSettled) :
    ((tryCatchFinally body (catchPart d cV iV r) (finallyPart d cV r)) []
      ).2.filter evIsSettled = settledEvents d := by
  rcases hb : body [] with ⟨r1, s1⟩
  obtain ⟨n1, h1, h1t⟩ := hbody []
  rw [hb] at h1
  simp only [List.nil_append] at h1
  subst h1
  cases r1 with
  | ok a =>
      simp only [tryCatchFinally, hb, finallyPart,
        executeHooks_run .onSettled
          { ctx := cV, meta := d.meta, rawInput := r }
          d.hooks.onSettled hset]
      simp [List.filter_append, filter_settled_nil _ h1t,
        filter_settled_events, settledEvents]
  | error e =>
      obtain ⟨n2, h2, h2t⟩ := catchPart_log d cV iV r e s1
      rcases hcp : catchPart d cV iV r e s1 with ⟨rc, s2⟩
      rw [hcp] at h2
      simp only at h2
      subst h2
      simp only [tryCatchFinally, hb, hcp, finallyPart,
        executeHooks_run .onSettled
          { ctx := cV, meta := d.meta, rawInput := r }
          d.hooks.onSettled hset]
      simp [List.filter_append, filter_settled_nil _ h1t,
        filter_settled_nil _ h2t, filter_settled_events, settledEvents]

/-- A middleware body behaves the same under pointwise-equal `next`
capabilities. -/
theorem interpMW_congr (prog : MWProg)
    (n1 n2 : Option JSValue → Except JSValue JSValue)
    (h : ∀ p, n1 p = n2 p) : interpMW prog n1 = interpMW prog n2 := by
  induction prog with
  | ret v => rfl
  | throwV v => rfl
  | callNext patch k ih =>
      simp only [interpMW, h patch]
      cases n2 patch with
      | error e => rfl
      | ok r => exact ih r

/-- One step of the stack preserves pointwise-equal tails. -/
theorem stack_cons_congr (meta input raw : JSValue) (m : MW)
    (r1 r2 : List MW) (prev : JSValue)
    (h : ∀ p, executeMiddlewareStack meta input raw r1 p =
      executeMiddlewareStack meta input raw r2 p) :
    executeMiddlewareStack meta input raw (m :: r1) prev =
      executeMiddlewareStack meta input raw (m :: r2) prev := by
  simp only [executeMiddlewareStack]
  rw [interpMW_congr (m meta prev input raw) _ _
    (fun p => h (nextMerge prev p))]

/-- Middlewares positioned after a middleware that never calls `next`
cannot influence the stack: the run is the same for any tail. -/
theorem stack_ignores_post (meta input raw v : JSValue) :
    ∀ (pre post post' : List MW) (prev : JSValue),
      executeMiddlewareStack meta input raw (pre ++ constMW v :: post) prev =
        executeMiddlewareStack meta input raw (pre ++ constMW v :: post') prev := by
  intro pre
  induction pre with
  | nil =>
      intro post post' prev
      simp [executeMiddlewareStack, interpMW, constMW]
  | cons m t ih =>
      intro post post' prev
      rw [List.cons_append, List.cons_append]
      exact stack_cons_congr meta input raw m _ _ prev
        (fun p => ih post post' p)

/-- A head middleware that never calls `next` resolves the whole stack
to its return value, with the nullish fallback to the incoming context. -/
theorem stack_const_head (meta input raw prev v : JSValue) (rest : List MW) :
    executeMiddlewareStack meta input raw (constMW v :: rest) prev =
      Except.ok (if isNullish v then prev else v) := by
  simp [executeMiddlewareStack, interpMW, constMW]

/-- C1: the compiled callable of a builder with the single input schema
`{name: string}`, no middleware, and a handler returning
`{greeting: "hi " + input.name}`, invoked with `{name: "Ann"}`,
resolves to the success `Result` carrying `{greeting: "hi Ann"}`, whose
terminal object shape has `data = {greeting: "hi Ann"}` and
`error = null`. -/
theorem c1_scenario_greeting :
    execute scenarioDef greetHandler
        (JSValue.obj [("name", JSValue.str "Ann")]) [] =
      (Except.ok (Result.success
        (JSValue.obj [("greeting", JSValue.str "hi Ann")])), []) ∧
    toResultObj (Result.success
        (JSValue.obj [("greeting", JSValue.str "hi Ann")])) =
      { data := JSValue.obj [("greeting", JSValue.str "hi Ann")],
        error := none } :=
  ⟨rfl, rfl⟩

/-- C4 counterexample: the success `Result` whose `data` payload is
itself `null` — produced by an actual invocation whose handler returns
`null` — satisfies `isSuccess` and `isFailure` simultaneously, so the
two predicates are not mutually exclusive on it and neither of its
fields is non-null. -/
theorem c4_counterexample :
    InResultObj nullSuccess ∧
    isSuccess nullSuccess = true ∧
    isFailure nullSuccess = true ∧
    ¬(isSuccess nullSuccess ≠ isFailure nullSuccess) ∧
    (execute nullHandlerDef nullHandler .undefined []).1 =
      Except.ok (Result.success JSValue.null) ∧
    toResultObj (Result.success JSValue.null) = nullSuccess := by
  exact ⟨Or.inl rfl, rfl, rfl, fun hcon => hcon rfl, rfl, rfl⟩

/-- C4 amended: for every value of the `Result` union type in which at
least one of `data`, `error` is non-null, `isSuccess` and `isFailure`
are mutually exclusive and exactly one of `data`, `error` is non-null;
the only exception is a success `Result` whose `data` payload is itself
`null` (both fields null), on which both predicates return `true`. -/
theorem c4_mutual_exclusivity (r : ResultObj) (hr : InResultObj r)
    (hnn : r.data ≠ JSValue.null ∨ r.error ≠ none) :
    isSuccess r ≠ isFailure r ∧
      (r.error = none → r.data ≠ JSValue.null) ∧
      (r.error ≠ none → r.data = JSValue.null) := by
  rcases hr with he | ⟨hd, he⟩
  · have hd : r.data ≠ JSValue.null := by
      rcases hnn with h | h
      · exact h
      · exact absurd he h
    have hf : isFailure r = false := by
      unfold isFailure
      cases hv : r.data <;> simp_all
    refine ⟨?_, fun _ => hd, fun hcon => absurd he hcon⟩
    simp [isSuccess, he, hf]
  · have hs : isSuccess r = false := by
      unfold isSuccess
      cases hv : r.error with
      | none => exact absurd hv he
      | some e => rfl
    have hf : isFailure r = true := by
      unfold isFailure
      rw [hd]
    refine ⟨?_, fun hcon => absurd hcon he, fun _ => hd⟩
    simp [hs, hf]

/-- C4 witness: a populated success value lies in the union, has a
non-null field, and the amended exclusivity holds on it. -/
theorem c4_mutual_exclusivity_witness :
    InResultObj ⟨JSValue.str "x", none⟩ ∧
    ((⟨JSValue.str "x", none⟩ : ResultObj).data ≠ JSValue.null ∨
      (⟨JSValue.str "x", none⟩ : ResultObj).error ≠ none) ∧
    (isSuccess ⟨JSValue.str "x", none⟩ ≠ isFailure ⟨JSValue.str "x", none⟩ ∧
      ((⟨JSValue.str "x", none⟩ : ResultObj).error = none →
        (⟨JSValue.str "x", none⟩ : ResultObj).data ≠ JSValue.null) ∧
      ((⟨JSValue.str "x", none⟩ : ResultObj).error ≠ none →
        (⟨JSValue.str "x", none⟩ : ResultObj).data = JSValue.null)) :=
  ⟨Or.inl rfl, Or.inl (by simp), c4_mutual_exclusivity _ (Or.inl rfl) (Or.inl (by simp))⟩

/-- C7: the classifier is a total function applying the priority rules —
a typed action error yields its own code, message and cause verbatim; a
framework redirect or not-found signal yields `NEXT_ERROR` with the
original signal preserved as cause; any other `Error` yields `ERROR`
with its message and cause; every other value yields `INTERNAL_ERROR`
with the fixed generic message and no cause.  In particular
`new Error("x")` classifies as `{code: ERROR, message: "x"}` and a
typed action error built from `{code: BAD_REQUEST}` classifies as
`{code: BAD_REQUEST}` with the default message for `BAD_REQUEST`. -/
theorem c7_classification_rules :
    (∀ code n m cs ex,
      getFormattedError (.err (.action code) n m cs ex) =
        { code := code, message := some m, cause := cs }) ∧
    (∀ n m cs ex,
      getFormattedError (.err .redirectCls n m cs ex) =
        { code := .NEXT_ERROR, message := some m,
          cause := some (.err .redirectCls n m cs ex) }) ∧
    (∀ n m cs ex,
      getFormattedError (.err .notFoundCls n m cs ex) =
        { code := .NEXT_ERROR, message := some m,
          cause := some (.err .notFoundCls n m cs ex) }) ∧
    (∀ n m cs ex,
      getFormattedError (.err .plainCls n m cs ex) =
        { code := .ERROR, message := some m, cause := cs }) ∧
    (∀ n m cs ex,
      getFormattedError (.err .unknownCls n m cs ex) =
        { code := .ERROR, message := some m, cause := cs }) ∧
    getFormattedError .null =
      { code := .INTERNAL_ERROR,
        message := some "An unexpected error has occurred", cause := none } ∧
    getFormattedError .undefined =
      { code := .INTERNAL_ERROR,
        message := some "An unexpected error has occurred", cause := none } ∧
    getFormattedError .func =
      { code := .INTERNAL_ERROR,
        message := some "An unexpected error has occurred", cause := none } ∧
    (∀ b, getFormattedError (.bool b) =
      { code := .INTERNAL_ERROR,
        message := some "An unexpected error has occurred", cause := none }) ∧
    (∀ n, getFormattedError (.num n) =
      { code := .INTERNAL_ERROR,
        message := some "An unexpected error has occurred", cause := none }) ∧
    (∀ s, getFormattedError (.str s) =
      { code := .INTERNAL_ERROR,
        message := some "An unexpected error has occurred", cause := none }) ∧
    (∀ fs, getFormattedError (.obj fs) =
      { code := .INTERNAL_ERROR,
        message := some "An unexpected error has occurred", cause := none }) ∧
    getFormattedError (jsError "x") =
      { code := .ERROR, message := some "x", cause := none } ∧
    getFormattedError (mkActionErrorProps .BAD_REQUEST none none) =
      { code := .BAD_REQUEST, message := some "Bad request", cause := none } :=
  ⟨fun _ _ _ _ _ => rfl, fun _ _ _ _ => rfl, fun _ _ _ _ => rfl,
   fun _ _ _ _ => rfl, fun _ _ _ _ => rfl, rfl, rfl, rfl,
   fun _ => rfl, fun _ => rfl, fun _ => rfl, fun _ => rfl, rfl, rfl⟩

/-- C2 counterexample: a `NEXT_ERROR` raised inside a middleware is not
re-raised as the original thrown value — the caller receives an
`ActionError` wrapper (classifying as `NEXT_ERROR` with the signal's
message) instead of the redirect signal itself, and the wrapper's cause
is `undefined` (the `ActionError` class field reset), so the original
signal is not preserved on the re-raised value at all. -/
theorem c2_counterexample :
    execute redirectMwDef (constHandler "never") .undefined [] =
      (Except.error redirectWrapped, []) ∧
    redirectWrapped ≠ redirectSignal ∧
    (getFormattedError redirectWrapped).code = Code.NEXT_ERROR ∧
    (getFormattedError redirectWrapped).cause = none := by
  refine ⟨rfl, ?_, rfl, rfl⟩
  simp [redirectWrapped, redirectSignal]

/-- C2 amended: when the registered hooks and the error handler do not
themselves throw, every invocation either returns a `Result` or
re-raises a value classifying as `NEXT_ERROR` (never any other raw
exception); and a `NEXT_ERROR` thrown by the handler itself is
re-raised as the original thrown value, after the error handler and the
success-hook batch have run. -/
theorem c2_boundary (d : Def) (hH : NonThrowingHooks d)
    (hE : NonThrowingEH d) :
    (∀ (h : Handler) (raw : JSValue),
      (∃ res, (execute d h raw []).1 = Except.ok res) ∨
      (∃ v, (execute d h raw []).1 = Except.error v ∧
        (getFormattedError v).code = Code.NEXT_ERROR)) ∧
    (d.inputs = [] → d.middlewares = [] →
      d.defaultContext = DCtx.val .undefined →
      ∀ (v raw : JSValue), (getFormattedError v).code = Code.NEXT_ERROR →
        (execute d (fun _ _ => Except.error v) raw []).1 =
          Except.error v) := by
  obtain ⟨hSuc, hErr, hSet⟩ := hH
  constructor
  · intro h raw
    cases hout : (execute d h raw []).1 with
    | ok res => exact Or.inl ⟨res, rfl⟩
    | error v =>
        refine Or.inr ⟨v, rfl, ?_⟩
        rcases hps : parseSchema d (combineSchema d.inputs) raw
            SchemaType.input with e | pin
        · simp only [execute, hps] at hout
          exact (tcf_throw_fst d hSuc hErr hSet hE _ _ _ _ _ _ hout).2
        · rcases hmw : executeMiddleware d pin raw with e | ctx
          · simp only [execute, hps, hmw] at hout
            exact (tcf_throw_fst d hSuc hErr hSet hE _ _ _ _ _ _ hout).2
          · rcases hhd : h ctx pin with hv | rawData
            · simp only [execute, hps, hmw, hhd] at hout
              exact (tcf_throw_fst d hSuc hErr hSet hE _ _ _ _ _ _ hout).2
            · rcases hop : parseSchema d (combineSchema d.outputs) rawData
                  SchemaType.output with e | pout
              · simp only [execute, hps, hmw, hhd, hop] at hout
                exact (tcf_throw_fst d hSuc hErr hSet hE _ _ _ _ _ _ hout).2
              · simp only [execute, hps, hmw, hhd, hop] at hout
                rw [tcf_success_fst d hSuc hSet ctx pin raw rawData pout []]
                  at hout
                exact Except.noConfusion hout
  · intro hin hmw0 hdc v raw hnext
    have hps : parseSchema d (combineSchema d.inputs) raw SchemaType.input =
        Except.ok raw := by
      simp [parseSchema, hin]
    have hmw : executeMiddleware d raw raw = Except.ok JSValue.undefined := by
      simp [executeMiddleware, hdc, resolveDefaultContext, jsTruthy, hmw0,
        executeMiddlewareStack]
    simp only [execute, hps, hmw]
    simp [tryCatchFinally, effThrow, catchPart_run d hSuc hErr hE, hnext,
      finallyPart,
      executeHooks_run .onSettled
        { ctx := JSValue.undefined, meta := d.meta, rawInput := raw }
        d.hooks.onSettled hSet]

/-- C2 witness: the amended boundary property instantiated at the
hook-free, handler-only factory action. -/
theorem c2_boundary_witness :
    NonThrowingHooks plainDef ∧ NonThrowingEH plainDef ∧
    ((∀ (h : Handler) (raw : JSValue),
        (∃ res, (execute plainDef h raw []).1 = Except.ok res) ∨
        (∃ v, (execute plainDef h raw []).1 = Except.error v ∧
          (getFormattedError v).code = Code.NEXT_ERROR)) ∧
      (plainDef.inputs = [] → plainDef.middlewares = [] →
        plainDef.defaultContext = DCtx.val .undefined →
        ∀ (v raw : JSValue), (getFormattedError v).code = Code.NEXT_ERROR →
          (execute plainDef (fun _ _ => Except.error v) raw []).1 =
            Except.error v)) := by
  have hnone : NonThrowingHookList none := by
    intro hk hmem
    simp at hmem
  have h1 : NonThrowingHooks plainDef := ⟨hnone, hnone, hnone⟩
  have h2 : NonThrowingEH plainDef := by
    intro f hf
    exact Option.noConfusion (show (none : Option EH) = some f from hf)
  exact ⟨h1, h2, c2_boundary plainDef h1 h2⟩

/-- C3: on every invocation — success `Result`, failure `Result`
(handler throw, middleware throw, validation throw), or a `NEXT_ERROR`
re-raise — the registered `onSettled` hooks are exactly the `onSettled`
hook executions the invocation records, each run once, in registration
order (hypothesis: the settled hooks themselves do not throw, since a
throwing settled hook aborts the rest of its batch). -/
theorem c3_settled_always (d : Def)
    (hset : NonThrowingHookList d.hooks.onSettled) (h : Handler)
    (raw : JSValue) :
    ((execute d h raw []).2).filter evIsSettled = settledEvents d := by
  rcases hps : parseSchema d (combineSchema d.inputs) raw
      SchemaType.input with e | pin
  · simp only [execute, hps]
    exact tcf_settled d _ _ _ _ (fun s => ⟨[], by simp [effThrow], by simp⟩) hset
  · rcases hmw : executeMiddleware d pin raw with e | ctx
    · simp only [execute, hps, hmw]
      exact tcf_settled d _ _ _ _ (fun s => ⟨[], by simp [effThrow], by simp⟩) hset
    · rcases hhd : h ctx pin with hv | rawData
      · simp only [execute, hps, hmw, hhd]
        exact tcf_settled d _ _ _ _ (fun s => ⟨[], by simp [effThrow], by simp⟩) hset
      · rcases hop : parseSchema d (combineSchema d.outputs) rawData
            SchemaType.output with e | pout
        · simp only [execute, hps, hmw, hhd, hop]
          exact tcf_settled d _ _ _ _ (fun s => ⟨[], by simp [effThrow], by simp⟩) hset
        · simp only [execute, hps, hmw, hhd, hop]
          exact tcf_settled d _ _ _ _
            (fun s => successBody_log d _ _ _ _ _ s) hset

/-- C3 witness: an action with one settled hook and a throwing handler
records exactly that settled hook once. -/
theorem c3_settled_always_witness :
    NonThrowingHookList settledDef.hooks.onSettled ∧
    ((execute settledDef (fun _ _ => Except.error (jsError "x")) .undefined []
      ).2).filter evIsSettled = settledEvents settledDef := by
  have hset : NonThrowingHookList settledDef.hooks.onSettled := by
    intro hk hmem
    have : hk ∈ [hookOk 7] := hmem
    simp only [List.mem_singleton] at this
    subst this
    intro a
    rfl
  exact ⟨hset, c3_settled_always settledDef hset _ _⟩

/-- C5: every chain call produces a new definition that is the
pointwise merge of the old one and the delta — `input`, `output` and
`middleware` append to their list (in order) and leave every other
field unchanged; `hook` appends to exactly its lifecycle list;
`meta` shallow-merges with the delta winning pointwise (for truthy
metas, the typed case); `defaultContext` and `errorHandler` are carried
over unchanged by all five calls.  The original definition is a pure
value the chain never mutates, so two different chain calls from the
same builder each extend the same base (independent usability). -/
theorem c5_chain_merge (d : Def) (s s' : Schema) (m : MW) (mv : JSValue)
    (t : HookType) (hk : Hook)
    (hdm : jsTruthy d.meta = true) (hmv : jsTruthy mv = true) :
    ((d.input s).inputs = d.inputs ++ [s] ∧
     (d.input s').inputs = d.inputs ++ [s'] ∧
     (d.input s).outputs = d.outputs ∧
     (d.input s).middlewares = d.middlewares ∧
     (d.input s).meta = d.meta ∧
     (d.input s).hooks = d.hooks ∧
     (d.input s).defaultContext = d.defaultContext ∧
     (d.input s).errorHandler = d.errorHandler) ∧
    ((d.output s).outputs = d.outputs ++ [s] ∧
     (d.output s).inputs = d.inputs ∧
     (d.output s).middlewares = d.middlewares ∧
     (d.output s).meta = d.meta ∧
     (d.output s).hooks = d.hooks ∧
     (d.output s).defaultContext = d.defaultContext ∧
     (d.output s).errorHandler = d.errorHandler) ∧
    ((d.middleware m).middlewares = d.middlewares ++ [m] ∧
     (d.middleware m).inputs = d.inputs ∧
     (d.middleware m).outputs = d.outputs ∧
     (d.middleware m).meta = d.meta ∧
     (d.middleware m).hooks = d.hooks ∧
     (d.middleware m).defaultContext = d.defaultContext ∧
     (d.middleware m).errorHandler = d.errorHandler) ∧
    ((d.hook t hk).hooks.get t = some ((d.hooks.get t).getD [] ++ [hk]) ∧
     (∀ t', t' ≠ t → (d.hook t hk).hooks.get t' = d.hooks.get t') ∧
     (d.hook t hk).inputs = d.inputs ∧
     (d.hook t hk).outputs = d.outputs ∧
     (d.hook t hk).middlewares = d.middlewares ∧
     (d.hook t hk).meta = d.meta ∧
     (d.hook t hk).defaultContext = d.defaultContext ∧
     (d.hook t hk).errorHandler = d.errorHandler) ∧
    ((d.chainMeta mv).inputs = d.inputs ∧
     (d.chainMeta mv).outputs = d.outputs ∧
     (d.chainMeta mv).middlewares = d.middlewares ∧
     (d.chainMeta mv).hooks = d.hooks ∧
     (d.chainMeta mv).defaultContext = d.defaultContext ∧
     (d.chainMeta mv).errorHandler = d.errorHandler ∧
     (∀ k v, (fieldsForSpread mv).lookup k = some v →
        (fieldsForSpread (d.chainMeta mv).meta).lookup k = some v) ∧
     (∀ k, (fieldsForSpread mv).lookup k = none →
        (fieldsForSpread (d.chainMeta mv).meta).lookup k =
          (fieldsForSpread d.meta).lookup k)) := by
  have hmeta : (d.chainMeta mv).meta = jsSpread2 d.meta mv := by
    simp [Def.chainMeta, createNewActionBuilder, createActionBuilder,
      hdm, hmv]
  refine ⟨?_, ?_, ?_, ?_, ?_⟩
  · refine ⟨?_, ?_, ?_, ?_, ?_, ?_, ?_, ?_⟩ <;>
      simp [Def.input, createNewActionBuilder, createActionBuilder]
  · refine ⟨?_, ?_, ?_, ?_, ?_, ?_, ?_⟩ <;>
      simp [Def.output, createNewActionBuilder, createActionBuilder]
  · refine ⟨?_, ?_, ?_, ?_, ?_, ?_, ?_⟩ <;>
      simp [Def.middleware, createNewActionBuilder, createActionBuilder]
  · refine ⟨?_, ?_, ?_, ?_, ?_, ?_, ?_, ?_⟩
    · cases t <;> simp [Def.hook, createNewActionBuilder,
        createActionBuilder, hooksSingle, hooksOverride, Hooks.get]
    · intro t' ht
      cases t <;> cases t' <;> simp_all [Def.hook, createNewActionBuilder,
        createActionBuilder, hooksSingle, hooksOverride, Hooks.get]
    all_goals simp [Def.hook, createNewActionBuilder, createActionBuilder]
  · refine ⟨by simp [Def.chainMeta, createNewActionBuilder,
      createActionBuilder],
      by simp [Def.chainMeta, createNewActionBuilder, createActionBuilder],
      by simp [Def.chainMeta, createNewActionBuilder, createActionBuilder],
      by simp [Def.chainMeta, createNewActionBuilder, createActionBuilder],
      by simp [Def.chainMeta, createNewActionBuilder, createActionBuilder],
      by simp [Def.chainMeta, createNewActionBuilder, createActionBuilder],
      ?_, ?_⟩
    · intro k v h
      rw [hmeta,
        show fieldsForSpread (jsSpread2 d.meta mv) =
          assocMerge (fieldsForSpread d.meta) (fieldsForSpread mv) from rfl,
        lookup_assocMerge k _ _, h]
    · intro k h
      rw [hmeta,
        show fieldsForSpread (jsSpread2 d.meta mv) =
          assocMerge (fieldsForSpread d.meta) (fieldsForSpread mv) from rfl,
        lookup_assocMerge k _ _, h]

/-- C5 witness: the merge laws instantiated at a factory definition
with a truthy object meta and concrete deltas. -/
theorem c5_chain_merge_witness :
    jsTruthy metaDef.meta = true ∧
    jsTruthy (JSValue.obj [("b", JSValue.num 2)]) = true ∧
    ((metaDef.input [("x", FieldKind.fstring)]).inputs =
        metaDef.inputs ++ [[("x", FieldKind.fstring)]] ∧
      (metaDef.input [("y", FieldKind.fnumber)]).inputs =
        metaDef.inputs ++ [[("y", FieldKind.fnumber)]] ∧
      (metaDef.input [("x", FieldKind.fstring)]).outputs = metaDef.outputs ∧
      (metaDef.input [("x", FieldKind.fstring)]).middlewares =
        metaDef.middlewares ∧
      (metaDef.input [("x", FieldKind.fstring)]).meta = metaDef.meta ∧
      (metaDef.input [("x", FieldKind.fstring)]).hooks = metaDef.hooks ∧
      (metaDef.input [("x", FieldKind.fstring)]).defaultContext =
        metaDef.defaultContext ∧
      (metaDef.input [("x", FieldKind.fstring)]).errorHandler =
        metaDef.errorHandler) ∧
    ((metaDef.output [("x", FieldKind.fstring)]).outputs =
        metaDef.outputs ++ [[("x", FieldKind.fstring)]] ∧
      (metaDef.output [("x", FieldKind.fstring)]).inputs = metaDef.inputs ∧
      (metaDef.output [("x", FieldKind.fstring)]).middlewares =
        metaDef.middlewares ∧
      (metaDef.output [("x", FieldKind.fstring)]).meta = metaDef.meta ∧
      (metaDef.output [("x", FieldKind.fstring)]).hooks = metaDef.hooks ∧
      (metaDef.output [("x", FieldKind.fstring)]).defaultContext =
        metaDef.defaultContext ∧
      (metaDef.output [("x", FieldKind.fstring)]).errorHandler =
        metaDef.errorHandler) ∧
    ((metaDef.middleware (constMW JSValue.null)).middlewares =
        metaDef.middlewares ++ [constMW JSValue.null] ∧
      (metaDef.middleware (constMW JSValue.null)).inputs = metaDef.inputs ∧
      (metaDef.middleware (constMW JSValue.null)).outputs = metaDef.outputs ∧
      (metaDef.middleware (constMW JSValue.null)).meta = metaDef.meta ∧
      (metaDef.middleware (constMW JSValue.null)).hooks = metaDef.hooks ∧
      (metaDef.middleware (constMW JSValue.null)).defaultContext =
        metaDef.defaultContext ∧
      (metaDef.middleware (constMW JSValue.null)).errorHandler =
        metaDef.errorHandler) ∧
    ((metaDef.hook .onSuccess (hookOk 9)).hooks.get .onSuccess =
        some ((metaDef.hooks.get .onSuccess).getD [] ++ [hookOk 9]) ∧
      (∀ t', t' ≠ HookType.onSuccess →
        (metaDef.hook .onSuccess (hookOk 9)).hooks.get t' =
          metaDef.hooks.get t') ∧
      (metaDef.hook .onSuccess (hookOk 9)).inputs = metaDef.inputs ∧
      (metaDef.hook .onSuccess (hookOk 9)).outputs = metaDef.outputs ∧
      (metaDef.hook .onSuccess (hookOk 9)).middlewares =
        metaDef.middlewares ∧
      (metaDef.hook .onSuccess (hookOk 9)).meta = metaDef.meta ∧
      (metaDef.hook .onSuccess (hookOk 9)).defaultContext =
        metaDef.defaultContext ∧
      (metaDef.hook .onSuccess (hookOk 9)).errorHandler =
        metaDef.errorHandler) ∧
    ((metaDef.chainMeta (JSValue.obj [("b", JSValue.num 2)])).inputs =
        metaDef.inputs ∧
      (metaDef.chainMeta (JSValue.obj [("b", JSValue.num 2)])).outputs =
        metaDef.outputs ∧
      (metaDef.chainMeta (JSValue.obj [("b", JSValue.num 2)])).middlewares =
        metaDef.middlewares ∧
      (metaDef.chainMeta (JSValue.obj [("b", JSValue.num 2)])).hooks =
        metaDef.hooks ∧
      (metaDef.chainMeta (JSValue.obj [("b", JSValue.num 2)])).defaultContext =
        metaDef.defaultContext ∧
      (metaDef.chainMeta (JSValue.obj [("b", JSValue.num 2)])).errorHandler =
        metaDef.errorHandler ∧
      (∀ k v, (fieldsForSpread (JSValue.obj [("b", JSValue.num 2)])).lookup k =
          some v →
        (fieldsForSpread
          (metaDef.chainMeta (JSValue.obj [("b", JSValue.num 2)])).meta
          ).lookup k = some v) ∧
      (∀ k, (fieldsForSpread (JSValue.obj [("b", JSValue.num 2)])).lookup k =
          none →
        (fieldsForSpread
          (metaDef.chainMeta (JSValue.obj [("b", JSValue.num 2)])).meta
          ).lookup k = (fieldsForSpread metaDef.meta).lookup k)) :=
  ⟨rfl, rfl,
    c5_chain_merge metaDef [("x", FieldKind.fstring)]
      [("y", FieldKind.fnumber)] (constMW JSValue.null)
      (JSValue.obj [("b", JSValue.num 2)]) .onSuccess (hookOk 9) rfl rfl⟩

/-- C6: with a default-context provider and three middlewares each
patching a distinct fresh key via `next({ctx: {...}})` and returning
the result of `next`, the handler receives the context holding every
resolved default key with its value together with all three patched
keys with their patch values (each patch shallow-merged onto the
context current at that middleware). -/
theorem c6_context_accumulation (dflt : List (String × JSValue))
    (k1 k2 k3 : String) (v1 v2 v3 : JSValue)
    (h12 : k1 ≠ k2) (h13 : k1 ≠ k3) (h23 : k2 ≠ k3)
    (f1 : dflt.lookup k1 = none) (f2 : dflt.lookup k2 = none)
    (f3 : dflt.lookup k3 = none) :
    (execute (accumDef dflt k1 k2 k3 v1 v2 v3) ctxHandler .undefined []).1 =
      Except.ok (Result.success
        (JSValue.obj (accumCtx dflt k1 k2 k3 v1 v2 v3))) ∧
    (accumCtx dflt k1 k2 k3 v1 v2 v3).lookup k1 = some v1 ∧
    (accumCtx dflt k1 k2 k3 v1 v2 v3).lookup k2 = some v2 ∧
    (accumCtx dflt k1 k2 k3 v1 v2 v3).lookup k3 = some v3 ∧
    (∀ k v, dflt.lookup k = some v →
      (accumCtx dflt k1 k2 k3 v1 v2 v3).lookup k = some v) := by
  refine ⟨rfl, ?_, ?_, ?_, ?_⟩
  · unfold accumCtx
    rw [lookup_assocMerge_of_none _ _ _
        (by simp [List.lookup, beq_false_of_ne h13]),
      lookup_assocMerge_of_none _ _ _
        (by simp [List.lookup, beq_false_of_ne h12]),
      lookup_assocMerge_of_some _ _ _ v1 (by simp [List.lookup])]
  · unfold accumCtx
    rw [lookup_assocMerge_of_none _ _ _
        (by simp [List.lookup, beq_false_of_ne h23]),
      lookup_assocMerge_of_some _ _ _ v2 (by simp [List.lookup])]
  · unfold accumCtx
    rw [lookup_assocMerge_of_some _ _ _ v3 (by simp [List.lookup])]
  · intro k v hv
    have n1 : List.lookup k [(k1, v1)] = none := by
      by_cases hk : k = k1
      · rw [hk, f1] at hv
        exact Option.noConfusion hv
      · simp [List.lookup, beq_false_of_ne hk]
    have n2 : List.lookup k [(k2, v2)] = none := by
      by_cases hk : k = k2
      · rw [hk, f2] at hv
        exact Option.noConfusion hv
      · simp [List.lookup, beq_false_of_ne hk]
    have n3 : List.lookup k [(k3, v3)] = none := by
      by_cases hk : k = k3
      · rw [hk, f3] at hv
        exact Option.noConfusion hv
      · simp [List.lookup, beq_false_of_ne hk]
    unfold accumCtx
    rw [lookup_assocMerge_of_none _ _ _ n3,
      lookup_assocMerge_of_none _ _ _ n2,
      lookup_assocMerge_of_none _ _ _ n1]
    exact hv

/-- C6 witness: default context `{u: 1}` and fresh keys a, b, c. -/
theorem c6_context_accumulation_witness :
    "a" ≠ "b" ∧ "a" ≠ "c" ∧ "b" ≠ "c" ∧
    List.lookup "a" [("u", JSValue.num 1)] = none ∧
    List.lookup "b" [("u", JSValue.num 1)] = none ∧
    List.lookup "c" [("u", JSValue.num 1)] = none ∧
    ((execute (accumDef [("u", JSValue.num 1)] "a" "b" "c"
        (JSValue.num 10) (JSValue.num 20) (JSValue.num 30))
        ctxHandler .undefined []).1 =
      Except.ok (Result.success (JSValue.obj
        (accumCtx [("u", JSValue.num 1)] "a" "b" "c"
          (JSValue.num 10) (JSValue.num 20) (JSValue.num 30)))) ∧
     (accumCtx [("u", JSValue.num 1)] "a" "b" "c"
        (JSValue.num 10) (JSValue.num 20) (JSValue.num 30)).lookup "a" =
       some (JSValue.num 10) ∧
     (accumCtx [("u", JSValue.num 1)] "a" "b" "c"
        (JSValue.num 10) (JSValue.num 20) (JSValue.num 30)).lookup "b" =
       some (JSValue.num 20) ∧
     (accumCtx [("u", JSValue.num 1)] "a" "b" "c"
        (JSValue.num 10) (JSValue.num 20) (JSValue.num 30)).lookup "c" =
       some (JSValue.num 30) ∧
     (∀ k v, List.lookup k [("u", JSValue.num 1)] = some v →
       (accumCtx [("u", JSValue.num 1)] "a" "b" "c"
          (JSValue.num 10) (JSValue.num 20) (JSValue.num 30)).lookup k =
         some v)) :=
  ⟨by decide, by decide, by decide, rfl, rfl, rfl,
    c6_context_accumulation [("u", JSValue.num 1)] "a" "b" "c"
      (JSValue.num 10) (JSValue.num 20) (JSValue.num 30)
      (by decide) (by decide) (by decide) rfl rfl rfl⟩

/-- C8 counterexample: with a single middleware that returns without
ever calling `next`, the handler still runs — the invocation's success
payload is the handler's sentinel value, refuting "the middlewares
after position i and the handler never run". -/
theorem c8_counterexample :
    (shortCircuitDef (JSValue.obj [("auth", JSValue.bool false)])
        []).middlewares =
      [constMW (JSValue.obj [("auth", JSValue.bool false)])] ∧
    execute (shortCircuitDef (JSValue.obj [("auth", JSValue.bool false)]) [])
        (constHandler "HANDLER_RAN") .undefined [] =
      (Except.ok (Result.success (JSValue.str "HANDLER_RAN")), []) :=
  ⟨rfl, rfl⟩

/-- C8 amended: a middleware at any position that returns without
calling `next` makes the middlewares after it unreachable (the stack's
outcome is independent of the tail) and resolves the stack to its
return value — with the nullish fallback to the incoming context — and
the handler still runs on the resulting context, the invocation
completing normally through output and cleanup logic. -/
theorem c8_short_circuit :
    (∀ (meta input raw v : JSValue) (pre post post' : List MW)
        (prev : JSValue),
      executeMiddlewareStack meta input raw (pre ++ constMW v :: post)
          prev =
        executeMiddlewareStack meta input raw (pre ++ constMW v :: post')
          prev) ∧
    (∀ (meta input raw prev v : JSValue) (rest : List MW),
      executeMiddlewareStack meta input raw (constMW v :: rest) prev =
        Except.ok (if isNullish v then prev else v)) ∧
    (∀ (v : JSValue) (post : List MW) (h : Handler) (raw out0 : JSValue),
      isNullish v = false → h v raw = Except.ok out0 →
      execute (shortCircuitDef v post) h raw [] =
        (Except.ok (Result.success out0), [])) := by
  refine ⟨?_, ?_, ?_⟩
  · intro meta input raw v pre post post' prev
    exact stack_ignores_post meta input raw v pre post post' prev
  · intro meta input raw prev v rest
    exact stack_const_head meta input raw prev v rest
  · intro v post h raw out0 hnn hh
    have hps : parseSchema (shortCircuitDef v post)
        (combineSchema (shortCircuitDef v post).inputs) raw
        SchemaType.input = Except.ok raw := rfl
    have hmw : executeMiddleware (shortCircuitDef v post) raw raw =
        Except.ok v := by
      simp [executeMiddleware, resolveDefaultContext, jsTruthy,
        show (shortCircuitDef v post).defaultContext = DCtx.val .undefined
          from rfl,
        show (shortCircuitDef v post).middlewares = constMW v :: post
          from rfl,
        stack_const_head, hnn]
    have hop : parseSchema (shortCircuitDef v post)
        (combineSchema (shortCircuitDef v post).outputs) out0
        SchemaType.output = Except.ok out0 := rfl
    simp only [execute, hps, hmw, hh, hop]
    simp [tryCatchFinally, successBody, effBind, executeHooks, effPure,
      finallyPart, jsCoalesce,
      show (shortCircuitDef v post).hooks = ({} : Hooks) from rfl]

/-- C8 witness: the amended short-circuit law at a concrete stack. -/
theorem c8_short_circuit_witness :
    isNullish (JSValue.obj [("k", JSValue.num 1)]) = false ∧
    constHandler "ran" (JSValue.obj [("k", JSValue.num 1)]) .undefined =
      Except.ok (JSValue.str "ran") ∧
    ((∀ (meta input raw v : JSValue) (pre post post' : List MW)
        (prev : JSValue),
      executeMiddlewareStack meta input raw (pre ++ constMW v :: post)
          prev =
        executeMiddlewareStack meta input raw (pre ++ constMW v :: post')
          prev) ∧
    (∀ (meta input raw prev v : JSValue) (rest : List MW),
      executeMiddlewareStack meta input raw (constMW v :: rest) prev =
        Except.ok (if isNullish v then prev else v)) ∧
    (∀ (v : JSValue) (post : List MW) (h : Handler) (raw out0 : JSValue),
      isNullish v = false → h v raw = Except.ok out0 →
      execute (shortCircuitDef v post) h raw [] =
        (Except.ok (Result.success out0), []))) ∧
    execute (shortCircuitDef (JSValue.obj [("k", JSValue.num 1)])
        [constMW (JSValue.str "later")]) (constHandler "ran") .undefined [] =
      (Except.ok (Result.success (JSValue.str "ran")), []) :=
  ⟨rfl, rfl, c8_short_circuit,
    c8_short_circuit.2.2 (JSValue.obj [("k", JSValue.num 1)])
      [constMW (JSValue.str "later")] (constHandler "ran") .undefined
      (JSValue.str "ran") rfl rfl⟩

/-- C9 counterexample: `create` accepts a non-callable default-context
value without any setup-time failure — the builder is produced with the
value stored — and the misuse surfaces only at invocation time, as a
classified `ERROR` failure `Result` from the call-site TypeError. -/
theorem c9_counterexample :
    (create { defaultContext := nonCallableDC }).defaultContext =
      nonCallableDC ∧
    (create { defaultContext := nonCallableDC }).inputs = [] ∧
    (create { defaultContext := nonCallableDC }).middlewares = [] ∧
    execute (create { defaultContext := nonCallableDC })
        (constHandler "ok") .undefined [] =
      (Except.ok (Result.failure
        { code := .ERROR,
          message := some "_def.defaultContext is not a function",
          cause := none }), []) :=
  ⟨rfl, rfl, rfl, rfl⟩

/-- C9 amended: `create(options)` performs no runtime callability
validation — it stores the supplied options verbatim in the initial
definition — and a stored truthy non-callable default-context value
produces a classified failure only when the compiled action is
invoked. -/
theorem c9_create_no_validation (opts : CreateOptions) (v : JSValue)
    (hv : jsTruthy v = true) (h : Handler) (raw : JSValue) :
    ((create opts).defaultContext = opts.defaultContext ∧
     (create opts).errorHandler = opts.errorHandler ∧
     (create opts).meta = opts.defaultMeta ∧
     (create opts).inputs = [] ∧
     (create opts).outputs = [] ∧
     (create opts).middlewares = [] ∧
     (create opts).hooks = {}) ∧
    (execute (create { defaultContext := DCtx.val v }) h raw []).1 =
      Except.ok (Result.failure
        { code := .ERROR,
          message := some "_def.defaultContext is not a function",
          cause := none }) := by
  refine ⟨⟨rfl, rfl, rfl, rfl, rfl, rfl, rfl⟩, ?_⟩
  have hps : parseSchema (create { defaultContext := DCtx.val v })
      (combineSchema (create { defaultContext := DCtx.val v }).inputs) raw
      SchemaType.input = Except.ok raw := rfl
  have hmw : executeMiddleware (create { defaultContext := DCtx.val v })
      raw raw = Except.error (getFormattedError typeErrorNotAFunction) := by
    simp [executeMiddleware, resolveDefaultContext, hv,
      show (create { defaultContext := DCtx.val v }).defaultContext =
        DCtx.val v from rfl]
  simp only [execute, hps, hmw]
  rfl

/-- C9 witness: the amended no-validation law at a concrete truthy
non-callable stored value. -/
theorem c9_create_no_validation_witness :
    jsTruthy (JSValue.obj [("not", JSValue.str "callable")]) = true ∧
    (((create { defaultContext := nonCallableDC }).defaultContext =
        nonCallableDC ∧
      (create { defaultContext := nonCallableDC }).errorHandler = none ∧
      (create { defaultContext := nonCallableDC }).meta = JSValue.undefined ∧
      (create { defaultContext := nonCallableDC }).inputs = [] ∧
      (create { defaultContext := nonCallableDC }).outputs = [] ∧
      (create { defaultContext := nonCallableDC }).middlewares = [] ∧
      (create { defaultContext := nonCallableDC }).hooks = {}) ∧
    (execute
        (create
          { defaultContext :=
              DCtx.val (JSValue.obj [("not", JSValue.str "callable")]) })
        (constHandler "ok") .undefined []).1 =
      Except.ok (Result.failure
        { code := .ERROR,
          message := some "_def.defaultContext is not a function",
          cause := none })) :=
  ⟨rfl, c9_create_no_validation { defaultContext := nonCallableDC }
    (JSValue.obj [("not", JSValue.str "callable")]) rfl
    (constHandler "ok") .undefined⟩

/-- C10: when the handler and output validation succeed but a
registered `onSuccess` hook throws `v`, the success payload is not
returned: when `v` does not classify as `NEXT_ERROR`, the caller
receives the failure `Result` of the classified error after the error
handler and the `onError` hooks ran (the settled hook still runs);
when `v` classifies as `NEXT_ERROR`, the invocation re-raises `v`. -/
theorem c10_success_hook_throw (v : JSValue) :
    execute (hookThrowDef v) (constHandler "payload") .undefined [] =
      (if (getFormattedError v).code = Code.NEXT_ERROR
       then (Except.error v,
         [Event.hookRun .onSuccess 1, Event.hookRun .onSuccess 2,
          Event.errorHandlerRun, Event.hookRun .onSuccess 1,
          Event.hookRun .onSuccess 2, Event.hookRun .onSettled 5])
       else (Except.ok (Result.failure (getFormattedError v)),
         [Event.hookRun .onSuccess 1, Event.hookRun .onSuccess 2,
          Event.errorHandlerRun, Event.hookRun .onError 4,
          Event.hookRun .onSettled 5])) := by
  have hps : parseSchema (hookThrowDef v)
      (combineSchema (hookThrowDef v).inputs) JSValue.undefined
      SchemaType.input = Except.ok JSValue.undefined := rfl
  have hmw : executeMiddleware (hookThrowDef v) JSValue.undefined
      JSValue.undefined = Except.ok JSValue.undefined := rfl
  have hop : parseSchema (hookThrowDef v)
      (combineSchema (hookThrowDef v).outputs) (JSValue.str "payload")
      SchemaType.output = Except.ok (JSValue.str "payload") := rfl
  have hsu : (hookThrowDef v).hooks.onSuccess =
      some [hookOk 1, hookThrow 2 v, hookOk 3] := rfl
  have her : (hookThrowDef v).hooks.onError = some [hookOk 4] := rfl
  have hse : (hookThrowDef v).hooks.onSettled = some [hookOk 5] := rfl
  have heh : (hookThrowDef v).errorHandler = some ehOk := rfl
  by_cases hc : (getFormattedError v).code = Code.NEXT_ERROR
  · rw [if_pos hc]
    simp only [execute, hps, hmw, constHandler, hop]
    simp [tryCatchFinally, successBody, catchPart, finallyPart, effBind,
      effTell, effOf, effPure, effThrow, runErrorHandler, executeHooks,
      executeHookList, hookOk, hookThrow, ehOk, hc, hsu, her, hse, heh]
  · rw [if_neg hc]
    simp only [execute, hps, hmw, constHandler, hop]
    simp [tryCatchFinally, successBody, catchPart, finallyPart, effBind,
      effTell, effOf, effPure, effThrow, runErrorHandler, executeHooks,
      executeHookList, hookOk, hookThrow, ehOk, hc, hsu, her, hse, heh]

end SafeAction
